import Mathlib

/-!
Verification of the django-sugar-crm client library.

This file gives a shallow embedding, in Lean 4, of the parts of the
library that the specification talks about:

* `sugarcrm/sugarerror.py` — the `SugarError` fault object and its
  classification properties (`is_invalid_session`, ...);
* `sugarcrm/sugarcrm.py` — `Sugarcrm._method_call`, the session manager
  wrapping every remote call;
* `sugarcrm/sugarentry.py` — `SugarEntry.__getitem__` / `__setitem__`,
  field-mapping and dirty-tracking;
* `sugarcrm/sugarquerylist.py` — `QueryList`: predicate building
  (`_build_query`), `filter` / `exclude` / `order_by` / `only`,
  slicing (`__getitem__`, `set_limits`, `clear_limits`, `_clone`) and
  `get`.

Remote I/O (the single blocking HTTP call of `_sendRequest`, and the
`get_entry_list` call made by `SugarEntry._retrieve`) is modelled by an
explicit oracle function passed as a parameter; every other line of the
embedded definitions is translated directly from the Python source.
-/

set_option autoImplicit false

namespace SugarCrm

/-! ## sugarerror.py: the fault object -/

/-- The data held by a `SugarError` exception: `sugarerror.py` stores
`data["name"]`, `data["description"]` and `data["number"]` of the decoded
remote fault object. -/
structure FaultData where
  name : String
  description : String
  number : Int
deriving Repr, DecidableEq

/-- `SugarError.is_invalid_session`: `self.number == 11`. -/
def FaultData.is_invalid_session (f : FaultData) : Bool :=
  f.number == 11

/-- `SugarError.is_invalid_login`: `self.number == 10`. -/
def FaultData.is_invalid_login (f : FaultData) : Bool :=
  f.number == 10

/-- `SugarError.is_missing_module`: `self.number == 20`. -/
def FaultData.is_missing_module (f : FaultData) : Bool :=
  f.number == 20

/-- `SugarError.is_null_response`: `self.number == 0`. -/
def FaultData.is_null_response (f : FaultData) : Bool :=
  f.number == 0

/-- `SugarError.is_invalid_request`: `self.number == 1001`. -/
def FaultData.is_invalid_request (f : FaultData) : Bool :=
  f.number == 1001

/-! ## sugarcrm.py: `Sugarcrm._method_call` -/

/-- The observable outcome of one `Sugarcrm._method_call` invocation.
`ret none` models the Python `return None` of the missing-module and
null-response branches; `raiseUnboundLocal` models the `UnboundLocalError`
Python raises when `return result` is reached with the local variable
`result` never assigned. -/
inductive MCOutcome (R : Type) where
  | ret : Option R → MCOutcome R
  | raiseSugarError : FaultData → MCOutcome R
  | raiseUnhandled : FaultData → MCOutcome R
  | raiseUnboundLocal : MCOutcome R
deriving Repr, DecidableEq

/-- Trace of one `_method_call` invocation: its outcome, how many times
`login` was re-run, the `rest_data` list (`[self._session] + list(args)`)
of each `_sendRequest` made for the method itself, the final value of
`self._session`, and what the invalid-request branch printed (method name
and args), if anything. -/
structure MCTrace (R : Type) where
  outcome : MCOutcome R
  loginCalls : Nat
  sentData : List (List String)
  finalSession : String
  logged : Option (String × List String)
deriving Repr, DecidableEq

/-- Shallow embedding of `Sugarcrm._method_call` (sugarcrm.py, lines
126-148).  `send` is the transport oracle: the outcome of
`_sendRequest method_name data` as a function of the `rest_data` list;
`loginNew` is the session id a fresh `self.login()` would return (the
embedding assumes the re-login itself succeeds, as the source does — a
failing re-login would raise out of `login`, a path no claim is about).

```
try:
    result = self._sendRequest(method_name, [self._session] + list(args))
except SugarError as error:
    if error.is_invalid_session:
        self._session = self.login()
        result = self._sendRequest(method_name, [self._session] + list(args))
    elif error.is_missing_module:
        return None
    elif error.is_null_response:
        return None
    elif error.is_invalid_request:
        print(method_name, args)
    else:
        raise SugarUnhandledException(...)
return result
```
-/
def methodCall {R : Type} (send : List String → Except FaultData R)
    (loginNew : String) (session : String) (methodName : String)
    (args : List String) : MCTrace R :=
  match send (session :: args) with
  | .ok v => ⟨.ret (some v), 0, [session :: args], session, none⟩
  | .error e =>
    if e.is_invalid_session then
      match send (loginNew :: args) with
      | .ok v =>
          ⟨.ret (some v), 1, [session :: args, loginNew :: args], loginNew, none⟩
      | .error e2 =>
          ⟨.raiseSugarError e2, 1, [session :: args, loginNew :: args], loginNew, none⟩
    else if e.is_missing_module then
      ⟨.ret none, 0, [session :: args], session, none⟩
    else if e.is_null_response then
      ⟨.ret none, 0, [session :: args], session, none⟩
    else if e.is_invalid_request then
      ⟨.raiseUnboundLocal, 0, [session :: args], session, some (methodName, args)⟩
    else
      ⟨.raiseUnhandled e, 0, [session :: args], session, none⟩

/-! ## sugarentry.py: `SugarEntry` field access -/

/-- Python-dict lookup on an association list (keys are field names). -/
def dictGet {V : Type} : List (String × V) → String → Option V
  | [], _ => none
  | (k0, v0) :: rest, k => if k0 = k then some v0 else dictGet rest k

/-- Python-dict update on an association list: replace the value in place
if the key exists, append otherwise. -/
def dictSet {V : Type} : List (String × V) → String → V → List (String × V)
  | [], k, v => [(k, v)]
  | (k0, v0) :: rest, k, v =>
    if k0 = k then (k0, v) :: rest else (k0, v0) :: dictSet rest k v

/-- Errors a `SugarEntry` field access can raise: the
`AttributeError("Invalid field ...")` of `__getitem__` / `__setitem__`,
and the `KeyError` Python would raise if `return self._fields[field_name]`
ran after a retrieve that did not populate the field. -/
inductive EntryErr where
  | attributeError : String → EntryErr
  | keyError : String → EntryErr
deriving Repr, DecidableEq

/-- The state of one `SugarEntry` that field access touches: the module
identity (`module_name`, `_table`), the schema (`_available_fields`, as
the list of field-name keys of the module-fields response), the local
value mapping `_fields` and the dirty list `_dirty_fields`.  Field values
are the strings SugarCRM sends over the wire. -/
structure SugarEntry where
  module_name : String
  table : String
  available_fields : List String
  fields : List (String × String)
  dirty_fields : List String
deriving Repr, DecidableEq

/-- Shallow embedding of `SugarEntry.__setitem__` (sugarentry.py, lines
140-154).  Returns the exception raised (if any) together with the
post-state of the entry; Python raises before touching any state, so the
error case returns the receiver unchanged.

```
if field_name in self._available_fields:
    self.__dict__[field_name] = value
    self._fields[field_name] = value
    if field_name not in self._dirty_fields:
        self._dirty_fields.append(field_name)
else:
    raise AttributeError("Invalid field %s" % field_name)
```
(The `self.__dict__[field_name] = value` attribute shadow is not part of
the field mapping or the dirty list and is not modelled.) -/
def SugarEntry.setitem (e : SugarEntry) (field_name : String)
    (value : String) : Option EntryErr × SugarEntry :=
  if field_name ∈ e.available_fields then
    (none,
     { e with
       fields := dictSet e.fields field_name value,
       dirty_fields :=
         if field_name ∈ e.dirty_fields then e.dirty_fields
         else e.dirty_fields ++ [field_name] })
  else
    (some (.attributeError field_name), e)

/-- Sequence of `self[prop] = val` assignments, as the loop at the end of
`SugarEntry._retrieve` performs over the returned `name_value_list`.
Stops at the first exception, like Python. -/
def SugarEntry.setAll : SugarEntry → List (String × String) →
    Option EntryErr × SugarEntry
  | e, [] => (none, e)
  | e, (k, v) :: rest =>
    match e.setitem k v with
    | (some err, e2) => (some err, e2)
    | (none, e2) => e2.setAll rest

/-- Shallow embedding of `SugarEntry._retrieve(self, [f])` as called from
`__getitem__` (sugarentry.py, lines 93-110), for a single field `f`.
The remote `get_entry_list` call is the oracle `remote`: `none` models an
empty `entry_list` / `name_value_list` response (Python then assigns
`self[field] = ""` for every requested field), `some nvl` models the
returned name-value pairs, already HTML-unescaped with falsy values
replaced by the empty string (the spec leaves HTML-unescaping out of
scope).  The
result is (exception, post-state, number of remote calls made): when the
requested field is already known, `fieldlist` becomes empty and the
method returns without any remote call. -/
def SugarEntry.retrieveField (e : SugarEntry)
    (remote : String → Option (List (String × String))) (f : String) :
    Option EntryErr × SugarEntry × Nat :=
  if (dictGet e.fields f).isSome then
    (none, e, 0)
  else
    match remote f with
    | none =>
      match e.setitem f "" with
      | (err, e2) => (err, e2, 1)
    | some nvl =>
      match e.setAll nvl with
      | (err, e2) => (err, e2, 1)

/-- Shallow embedding of `SugarEntry.__getitem__` for a single field name
(sugarentry.py, lines 112-129).  Returns the value-or-exception, the
post-state of the entry, and the number of remote calls issued.

```
if field_name not in self._available_fields:
    raise AttributeError("Invalid field %s" % field_name)
if field_name not in self._fields:
    self._retrieve([field_name])
return self._fields[field_name]
```
-/
def SugarEntry.getitem (e : SugarEntry)
    (remote : String → Option (List (String × String)))
    (field_name : String) :
    Except EntryErr String × SugarEntry × Nat :=
  if field_name ∈ e.available_fields then
    match dictGet e.fields field_name with
    | some v => (.ok v, e, 0)
    | none =>
      match e.retrieveField remote field_name with
      | (some err, e2, n) => (.error err, e2, n)
      | (none, e2, n) =>
        match dictGet e2.fields field_name with
        | some v => (.ok v, e2, n)
        | none => (.error (.keyError field_name), e2, n)
  else
    (.error (.attributeError field_name), e, 0)

/-! ## sugarquerylist.py: `QueryList` -/

/-- The values the `_limit` / `_offset` attributes of a `QueryList` take:
the constructor defaults them to the empty string, `clear_limits` sets
them to
`None` / `0`, and `set_limits` sets them to ints. -/
inductive PyVal where
  | noneV : PyVal
  | intV : Int → PyVal
  | strV : String → PyVal
deriving Repr, DecidableEq

/-- The state of one `QueryList` (sugarquerylist.py, `__init__`):
`model` is the `SugarEntry` being queried, `query` the predicate string,
`order_by` the ordering clause, `low_mark` / `high_mark` the running
offset/limit watermarks, `limit` / `offset` the values handed to
`_search`, `fields` the projection, `links_to_names` the related-link
request, and `result_cache` the page cached by `_fetch_all`.
(`_total` and `_sent` are only used by `count()` and are not modelled.) -/
structure QueryList where
  model : SugarEntry
  query : String
  order_by : String
  low_mark : Int
  high_mark : Option Int
  limit : PyVal
  offset : PyVal
  fields : Option (List String)
  links_to_names : Option (List String)
  result_cache : Option (List SugarEntry)
deriving Repr, DecidableEq

/-- The `QueryList` constructor: `low_mark, high_mark = 0, None`,
`_result_cache = None`, everything else from the keyword arguments
(in source order: query, order_by, limit, offset, fields,
links_to_names). -/
def QueryList.init (model : SugarEntry) (query : String)
    (order_by : String) (limit : PyVal) (offset : PyVal)
    (fields : Option (List String)) (links_to_names : Option (List String)) :
    QueryList :=
  ⟨model, query, order_by, 0, none, limit, offset, fields, links_to_names,
   none⟩

/-- `QueryList.clear_limits`: `self._limit, self._offset = None, 0`. -/
def QueryList.clear_limits (ql : QueryList) : QueryList :=
  { ql with limit := .noneV, offset := .intV 0 }

/-- `QueryList._get_limit_offset_params`:

```
offset = low_mark or 0
if high_mark is not None:
    return (high_mark - offset), offset
return None, offset
```
(`low_mark or 0` evaluates to `0` when `low_mark` is falsy, i.e. `0`, and
to `low_mark` otherwise.) -/
def get_limit_offset_params (low_mark : Int) (high_mark : Option Int) :
    PyVal × PyVal :=
  let off : Int := if low_mark = 0 then 0 else low_mark
  match high_mark with
  | some h => (.intV (h - off), .intV off)
  | none => (.noneV, .intV off)

/-- Shallow embedding of `QueryList.set_limits` (sugarquerylist.py, lines
127-152).

```
if high is not None:
    if self.high_mark is not None:
        self.high_mark = min(self.high_mark, self.low_mark + high)
    else:
        self.high_mark = self.low_mark + high
if low is not None:
    if self.high_mark is not None:
        self.low_mark = min(self.high_mark, self.low_mark + low)
    else:
        self.low_mark = self.low_mark + low

if self.low_mark == self.high_mark:
    self.clear_limits()

if self.low_mark != self.high_mark:
    self._limit, self._offset = self._get_limit_offset_params(...)
```
(`low_mark` is always an int and `high_mark` an int or `None`, so the
Python comparison `low_mark == high_mark` holds iff
`high_mark = some low_mark`.) -/
def QueryList.set_limits (ql : QueryList) (low : Option Int)
    (high : Option Int) : QueryList :=
  let q1 : QueryList :=
    match high with
    | some h =>
      match ql.high_mark with
      | some hm => { ql with high_mark := some (min hm (ql.low_mark + h)) }
      | none => { ql with high_mark := some (ql.low_mark + h) }
    | none => ql
  let q2 : QueryList :=
    match low with
    | some l =>
      match q1.high_mark with
      | some hm => { q1 with low_mark := min hm (q1.low_mark + l) }
      | none => { q1 with low_mark := q1.low_mark + l }
    | none => q1
  let q3 : QueryList :=
    if q2.high_mark = some q2.low_mark then q2.clear_limits else q2
  if q3.high_mark = some q3.low_mark then q3
  else
    let p := get_limit_offset_params q3.low_mark q3.high_mark
    { q3 with limit := p.1, offset := p.2 }

/-- `QueryList._clone`: a fresh `QueryList` through the constructor,
copying query, order_by, limit, offset, fields and links_to_names (the
watermarks and the result cache are reset by the constructor). -/
def QueryList.clone (ql : QueryList) : QueryList :=
  QueryList.init ql.model ql.query ql.order_by ql.limit ql.offset
    ql.fields ql.links_to_names

/-- The characters before and after the first occurrence of `sep` in a
character list, or `none` when `sep` does not occur. -/
def findSep (sep : List Char) : List Char → Option (List Char × List Char)
  | [] => none
  | c :: rest =>
    if sep.isPrefixOf (c :: rest) then
      some ([], (c :: rest).drop sep.length)
    else
      match findSep sep rest with
      | some p => some (c :: p.1, p.2)
      | none => none

/-- Python `key.partition("__")`: split at the first occurrence of
`"__"`, returning (head, separator, tail); `(key, "", "")` when the
separator does not occur. -/
def partition3 (key : String) : String × String × String :=
  match findSep "__".data key.data with
  | some p => (String.mk p.1, "__", String.mk p.2)
  | none => (key, "", "")

/-- Python `s.endswith(suffix)`. -/
def strEndsWith (s suffix : String) : Bool :=
  suffix.data.isSuffixOf s.data

/-- Python `s.startswith(pre)`. -/
def strStartsWith (s pre : String) : Bool :=
  pre.data.isPrefixOf s.data

/-- A value bound to one keyword constraint of `_build_query`: a plain
(string-rendered) value, or the sequence handed to the `in` operator. -/
inductive QVal where
  | s : String → QVal
  | l : List String → QVal
deriving Repr, DecidableEq

/-- Python `"%s" % val` for a constraint value: the string itself, or the
list repr for a sequence. -/
def QVal.fmt : QVal → String
  | .s v => v
  | .l vs =>
    "[" ++ String.intercalate ", "
      (vs.map (fun v => "\x27" ++ v ++ "\x27")) ++ "]"

/-- The elements Python's `for elem in val` iterates over: the list
items, or the characters when the value is a string. -/
def QVal.elems : QVal → List String
  | .s v => v.data.map (fun c => String.mk [c])
  | .l vs => vs

/-- Python `s.rstrip(",")`: drop trailing comma characters. -/
def rstripComma (s : String) : String :=
  String.mk ((s.data.reverse.dropWhile (fun c => c = ',')).reverse)

/-- The operator dispatch of `_build_query` (sugarquerylist.py, lines
188-209), producing the fragment appended to `q_str` for one constraint,
or the `LookupError("Unsupported operator")`.  In the `in` branch the
source appends each element as a single-quoted value followed by a comma
to `q_str` and then rstrips `","` from the whole of `q_str`; since the
fragment starts with
`field ++ " IN ("` and every element ends in a quote before its comma,
the rstrip never reaches past the fragment, so it is applied to the
fragment alone here. -/
def renderOper (field : String) (key_sep : String) (key_oper : String)
    (val : QVal) : Except Unit String :=
  if key_oper = "exact" ∨ key_oper = "eq" ∨ (key_oper = "" ∧ key_sep = "") then
    .ok (field ++ " = \"" ++ val.fmt ++ "\"")
  else if key_oper = "contains" then
    .ok (field ++ " LIKE \"%" ++ val.fmt ++ "%\"")
  else if key_oper = "startswith" then
    .ok (field ++ " LIKE \"" ++ val.fmt ++ "%\"")
  else if key_oper = "in" then
    .ok (rstripComma (field ++ " IN (" ++
      String.join (val.elems.map (fun e => "\x27" ++ e ++ "\x27,"))) ++ ")")
  else if key_oper = "gt" then
    .ok (field ++ " > \"" ++ val.fmt ++ "\"")
  else if key_oper = "gte" then
    .ok (field ++ " >= \"" ++ val.fmt ++ "\"")
  else if key_oper = "lt" then
    .ok (field ++ " < \"" ++ val.fmt ++ "\"")
  else if key_oper = "lte" then
    .ok (field ++ " <= \"" ++ val.fmt ++ "\"")
  else
    .error ()

/-- How `_build_query` joins one more fragment onto the accumulated
`q_str`: `if q_str != "": q_str += " AND "` followed by
`q_str += frag`. -/
def joinAndStep (q_str : String) (frag : String) : String :=
  (if q_str ≠ "" then q_str ++ " AND " else q_str) ++ frag

/-- Folding `joinAndStep` from an accumulator over a fragment list. -/
def joinGo (acc : String) (frags : List String) : String :=
  frags.foldl joinAndStep acc

/-- The `" AND "`-join of a fragment list, starting from the empty
`q_str` as `_build_query` does. -/
def joinAnd (frags : List String) : String :=
  joinGo "" frags

/-- The per-constraint work of one `_build_query` loop iteration:
partition the key at `"__"`, alias `pk` to `id` when no `id` key is
present in the kwargs, silently drop fields not in the schema
(`.ok none`), qualify the field with the table name (`_cstm` table for
custom fields), and render the operator fragment (`.ok (some frag)`), or
fail with the unsupported-operator `LookupError`. -/
def item_frag (model : SugarEntry) (allKeys : List String)
    (kv : String × QVal) : Except Unit (Option String) :=
  let p := partition3 kv.1
  let key_field := if p.1 = "pk" ∧ "id" ∉ allKeys then "id" else p.1
  if key_field ∈ model.available_fields then
    let if_cstm := if strEndsWith key_field "_c" then "_cstm" else ""
    let field := model.table ++ if_cstm ++ "." ++ key_field
    match renderOper field p.2.1 p.2.2 kv.2 with
    | .error e => .error e
    | .ok frag => .ok (some frag)
  else
    .ok none

/-- One iteration of the `_build_query` loop: the fragment (if any) of
`item_frag`, joined onto the accumulated `q_str` with `" AND "`. -/
def build_query_step (model : SugarEntry) (allKeys : List String)
    (q_str : String) (kv : String × QVal) : Except Unit String :=
  match item_frag model allKeys kv with
  | .error e => .error e
  | .ok none => .ok q_str
  | .ok (some frag) => .ok (joinAndStep q_str frag)

/-- The `_build_query` loop over `query.items()` in insertion order. -/
def build_query_go (model : SugarEntry) (allKeys : List String) :
    List (String × QVal) → String → Except Unit String
  | [], acc => .ok acc
  | kv :: rest, acc =>
    match build_query_step model allKeys acc kv with
    | .error e => .error e
    | .ok acc2 => build_query_go model allKeys rest acc2

/-- Shallow embedding of `QueryList._build_query` (sugarquerylist.py,
lines 164-211).  The kwargs dict is modelled as an insertion-ordered
association list with (necessarily) distinct keys. -/
def build_query (model : SugarEntry) (query : List (String × QVal)) :
    Except Unit String :=
  build_query_go model (query.map Prod.fst) query ""

/-- `QueryList.filter` (sugarquerylist.py, lines 238-260): returns the
receiver post-state (the source never assigns to `self`, so it is the
receiver itself) and the freshly constructed `QueryList`.

```
if self._query != "":
    query = "(%s) AND (%s)" % (self._query, self._build_query(**query))
else:
    query = self._build_query(**query)
return QueryList(self.model, query, order_by=self._order_by,
                 limit=self._limit, offset=self._offset,
                 fields=self._fields, links_to_names=self._links_to_names)
```
-/
def QueryList.filter (ql : QueryList) (query : List (String × QVal)) :
    Except Unit (QueryList × QueryList) :=
  match build_query ql.model query with
  | .error e => .error e
  | .ok q =>
    let qstr :=
      if ql.query ≠ "" then "(" ++ ql.query ++ ") AND (" ++ q ++ ")" else q
    .ok (ql, QueryList.init ql.model qstr ql.order_by ql.limit ql.offset
      ql.fields ql.links_to_names)

/-- `QueryList.exclude` (sugarquerylist.py, lines 271-287): as `filter`,
negating its own fragment. -/
def QueryList.exclude (ql : QueryList) (query : List (String × QVal)) :
    Except Unit (QueryList × QueryList) :=
  match build_query ql.model query with
  | .error e => .error e
  | .ok q =>
    let qstr :=
      if ql.query ≠ "" then "(" ++ ql.query ++ ") AND NOT (" ++ q ++ ")"
      else "NOT (" ++ q ++ ")"
    .ok (ql, QueryList.init ql.model qstr ql.order_by ql.limit ql.offset
      ql.fields ql.links_to_names)

/-- `QueryList.remove_invalid_fields`: keep the fields present in the
model's available-field set, in order. -/
def remove_invalid_fields (model : SugarEntry) (fields : List String) :
    List String :=
  fields.filter (fun f => model.available_fields.contains f)

/-- `QueryList._get_ordering_field`: strip a leading `"-"`
(sort-descending marker), alias `pk` to `id`, validate against the
schema; `none` models the `(None, None)` return for invalid fields. -/
def get_ordering_field (model : SugarEntry) (value : String) :
    Option (String × Bool) :=
  let desc := strStartsWith value "-"
  let field_name := if desc then value.drop 1 else value
  let field_name := if field_name = "pk" then "id" else field_name
  if field_name ∈ remove_invalid_fields model [field_name] then
    some (field_name, desc)
  else
    none

/-- `QueryList.order_by` (sugarquerylist.py, lines 314-329): receiver
post-state and the freshly constructed `QueryList`; an invalid field
leaves the previous ordering in place. -/
def QueryList.orderBy (ql : QueryList) (value : String) :
    QueryList × QueryList :=
  let ord :=
    match get_ordering_field ql.model value with
    | some (f, desc) => if desc then f ++ " desc" else f
    | none => ql.order_by
  (ql, QueryList.init ql.model ql.query ord ql.limit ql.offset ql.fields
    ql.links_to_names)

/-- `QueryList.only` (sugarquerylist.py, lines 344-357): receiver
post-state and the freshly constructed `QueryList`; if no requested field
is valid, the previous projection is kept. -/
def QueryList.only (ql : QueryList) (_fields : List String) :
    QueryList × QueryList :=
  let valid := remove_invalid_fields ql.model _fields
  let fields := if valid ≠ [] then some valid else ql.fields
  (ql, QueryList.init ql.model ql.query ql.order_by ql.limit ql.offset
    fields ql.links_to_names)

/-- `QueryList.__getitem__` with a slice, uncached path (sugarquerylist.py,
lines 69-98): the first statement is `self.clear_limits()`, mutating the
receiver; then `qs = self._chain()` clones the (now cleared) receiver and
`qs.set_limits(start, stop)` computes the clone's window.  The returned
Python value is the clone's fetched result list (not a `QueryList`); the
pair returned here is (receiver post-state, the clone whose window is
fetched). -/
def QueryList.getitemSlice (ql : QueryList) (start : Option Int)
    (stop : Option Int) : QueryList × QueryList :=
  let s := ql.clear_limits
  let qs := s.clone
  (s, qs.set_limits start stop)

/-- `QueryList.__getitem__` with a non-negative int `k`, uncached path
(sugarquerylist.py, lines 69-77 and 100-103): `self.clear_limits()`, then
a clone with `set_limits(k, k + 1)`; the Python value returned is the
first element of the clone's fetched page. -/
def QueryList.getitemInt (ql : QueryList) (k : Int) :
    QueryList × QueryList :=
  let s := ql.clear_limits
  let qs := s.clone
  (s, qs.set_limits (some k) (some (k + 1)))

/-- The arguments `_fetch_all` hands to `SugarEntry._search`
(sugarquerylist.py, lines 49-54): `self._query, self._order_by,
self._offset, self._limit, self._fields, self._links_to_names`. -/
structure SearchArgs where
  query : String
  order_by : String
  offset : PyVal
  limit : PyVal
  fields : Option (List String)
  links_to_names : Option (List String)
deriving Repr, DecidableEq

/-- The `_search` call a `QueryList` evaluation performs. -/
def QueryList.searchArgs (ql : QueryList) : SearchArgs :=
  ⟨ql.query, ql.order_by, ql.offset, ql.limit, ql.fields,
   ql.links_to_names⟩

/-- The faults `QueryList.get` can raise: the `LookupError` of
`_build_query` on an unsupported operator, `DoesNotExist` on zero
matches, `MultipleObjectsReturned` on two or more. -/
inductive GetErr where
  | lookupError : GetErr
  | doesNotExist : String → GetErr
  | multipleReturned : String → Nat → GetErr
deriving Repr, DecidableEq

/-- The single `_search` call `QueryList.get` issues (sugarquerylist.py,
lines 213-223): a fresh `QueryList` built from `self.model`, the
predicate of the kwargs of `get` alone, with empty-string order_by,
limit and offset, and the receiver's fields/links_to_names. -/
def QueryList.getSearchArgs (ql : QueryList)
    (query : List (String × QVal)) : Except Unit SearchArgs :=
  match build_query ql.model query with
  | .error e => .error e
  | .ok q =>
    .ok (QueryList.init ql.model q "" (.strV "") (.strV "") ql.fields
      ql.links_to_names).searchArgs

/-- Shallow embedding of `QueryList.get` (sugarquerylist.py, lines
213-236).  `search` is the remote oracle: the entry list `_search`
returns for given arguments.

```
query = self._build_query(**query)
qs = QueryList(self.model, query, order_by="", limit="", offset="", ...)
num = len(qs)
if num == 1:
    return qs.first()
if not num:
    raise self.model.DoesNotExist(...)
raise self.model.MultipleObjectsReturned(...)
```
(`qs.first()` returns the head of the fetched page, or `None`.) -/
def QueryList.get (ql : QueryList) (search : SearchArgs → List SugarEntry)
    (query : List (String × QVal)) : Except GetErr (Option SugarEntry) :=
  match ql.getSearchArgs query with
  | .error _ => .error .lookupError
  | .ok sa =>
    let entries := search sa
    let num := entries.length
    if num = 1 then .ok entries.head?
    else if num = 0 then .error (.doesNotExist ql.model.module_name)
    else .error (.multipleReturned ql.model.module_name num)

/-! ## A structured mirror of the predicate strings

`_build_query` and `filter` only ever produce strings of a fixed shape:
an " AND "-join of atomic fragments, or `(P) AND (Q)` around two such
strings.  `Pred` is that shape as a syntax tree, `Pred.toStr` serializes
it to exactly the string the code builds (proved below), and `Pred.eval`
gives the strings their evident conjunctive semantics, atomic fragments
being interpreted by an environment.  This is what "the predicates are
logically equivalent" is read as. -/

/-- Predicate syntax: a flat " AND "-join of atomic fragments, or the
parenthesized conjunction `(P) AND (Q)`. -/
inductive Pred where
  | conj : List String → Pred
  | and2 : Pred → Pred → Pred
deriving Repr, DecidableEq

/-- Serialization of a `Pred`, matching the code's string building. -/
def Pred.toStr : Pred → String
  | .conj atoms => joinAnd atoms
  | .and2 p q => "(" ++ p.toStr ++ ") AND (" ++ q.toStr ++ ")"

/-- Conjunctive semantics of a `Pred` over an environment assigning a
truth value to each atomic fragment. -/
def Pred.eval (env : String → Bool) : Pred → Bool
  | .conj atoms => atoms.all env
  | .and2 p q => p.eval env && q.eval env

/-- Well-formedness: every atomic fragment is a non-empty string (every
fragment `renderOper` produces is). -/
def Pred.wf : Pred → Prop
  | .conj atoms => ∀ a ∈ atoms, a ≠ ""
  | .and2 p q => p.wf ∧ q.wf

/-- Logical equivalence of two predicates: equal truth value in every
environment. -/
def Pred.equiv (p q : Pred) : Prop :=
  ∀ env : String → Bool, p.eval env = q.eval env

/-- The structured counterpart of the query building in
`QueryList.filter`:
conjoin the new atom list onto an existing predicate, degenerating to the
atom list alone when the existing predicate serializes to the empty
string (the test `if self._query != ""` in the source). -/
def filterP (p : Pred) (atoms : List String) : Pred :=
  if p.toStr ≠ "" then .and2 p (.conj atoms) else .conj atoms

/-- The list of atomic fragments `_build_query` renders and keeps, in
order — `build_query` is proved to be its " AND "-join. -/
def build_atoms (model : SugarEntry) (allKeys : List String) :
    List (String × QVal) → Except Unit (List String)
  | [] => .ok []
  | kv :: rest =>
    match item_frag model allKeys kv with
    | .error e => .error e
    | .ok none => build_atoms model allKeys rest
    | .ok (some frag) =>
      (build_atoms model allKeys rest).map (fun l => frag :: l)

/-- The predicate string produced by `ql.filter(**a).filter(**b)`. -/
def chain2Query (ql : QueryList) (a b : List (String × QVal)) :
    Except Unit String :=
  match ql.filter a with
  | .error e => .error e
  | .ok r =>
    match r.2.filter b with
    | .error e => .error e
    | .ok r2 => .ok r2.2.query

/-- The predicate string produced by a single `ql.filter(**ab)`. -/
def combQuery (ql : QueryList) (ab : List (String × QVal)) :
    Except Unit String :=
  (ql.filter ab).map (fun r => r.2.query)

/-- The effective window a `(_limit, _offset)` pair denotes is contained
in the half-open row window `[L, H)`: both must be ints with
`[offset, offset + limit) ⊆ [L, H)`; a `None` limit (unbounded) or a
non-int value is never contained in a finite window. -/
def windowContained (limit : PyVal) (offset : PyVal) (L H : Int) : Prop :=
  match limit, offset with
  | .intV n, .intV o => L ≤ o ∧ o + n ≤ H ∧ 0 ≤ n
  | _, _ => False

/-! ## Concrete fixtures used by witnesses and counterexamples -/

/-- A concrete module: `Contacts`, table `t`, four schema fields. -/
def modelFx : SugarEntry :=
  ⟨"Contacts", "t", ["id", "name", "a", "b"], [("id", "")], []⟩

/-- A fresh `QueryList` over `modelFx`, as `SugarEntry.objects` builds it. -/
def qlFx : QueryList :=
  QueryList.init modelFx "" "" (.strV "") (.strV "") none none

/-- A `QueryList` whose window is already restricted to rows `[2, 5)`:
watermarks `(2, 5)`, `_limit = 3`, `_offset = 2`. -/
def qlLimFx : QueryList :=
  ⟨modelFx, "q", "ord", 2, some 5, .intV 3, .intV 2, none, none, none⟩

/-- A concrete entry over a two-field schema. -/
def entryFx : SugarEntry :=
  ⟨"Contacts", "t", ["id", "name"], [("id", "")], []⟩

/-- A transport that raises the invalid-session fault (number 11) for the
stale session token `"old"` and succeeds otherwise. -/
def sendFx : List String → Except FaultData Nat :=
  fun d =>
    if d = ["old", "x"] then .error ⟨"Invalid Session ID", "d", 11⟩
    else .ok 7

/-- A transport that always raises the invalid-request fault (1001). -/
def sendBadReqFx : List String → Except FaultData Nat :=
  fun _ => .error ⟨"Invalid Request", "d", 1001⟩

/-- A remote `_search` oracle returning exactly one entry. -/
def searchOneFx : SearchArgs → List SugarEntry :=
  fun _ => [entryFx]

/-!
# Theorems

One theorem per claim of the specification review, each preceded by the
claim id it settles; auxiliary lemmas carry no claim id.
-/

theorem length_pos_ne (s : String) (h : 0 < s.length) : s ≠ "" := by
  intro he
  subst he
  simp at h

theorem append_right_ne (a b : String) (hb : 0 < b.length) :
    a ++ b ≠ "" := by
  apply length_pos_ne
  rw [String.length_append]
  omega

/-- C1.  Error classification, as the code defines it: a decoded remote
fault is the retryable invalid-session fault exactly when its numeric
code is 11 (not 1 as claimed); 0 classifies as null response, 10 as
invalid login, 20 as missing module, 1001 as invalid request. -/
theorem C1_fault_classification (f : FaultData) :
    (f.is_invalid_session = true ↔ f.number = 11) ∧
    (f.is_null_response = true ↔ f.number = 0) ∧
    (f.is_invalid_login = true ↔ f.number = 10) ∧
    (f.is_missing_module = true ↔ f.number = 20) ∧
    (f.is_invalid_request = true ↔ f.number = 1001) := by
  simp [FaultData.is_invalid_session, FaultData.is_null_response,
    FaultData.is_invalid_login, FaultData.is_missing_module,
    FaultData.is_invalid_request]

/-- C1, counterexample to the claim as stated: the fault with numeric
code 1 is not classified as the invalid-session fault, refuting
"is_invalid_session holds iff the fault's number equals 1". -/
theorem C1_counterexample :
    ¬ ((FaultData.mk "Invalid Session ID" "d" 1).is_invalid_session = true ↔
       (FaultData.mk "Invalid Session ID" "d" 1).number = 1) := by
  decide

/-- C2.  Retry-once on session loss: when the first `_sendRequest` of a
method call raises the retryable invalid-session fault, `_method_call`
performs exactly one fresh login, repeats the call exactly once with the
new token prepended to the same arguments, and its outcome is the second
call's: the second call's value if it succeeds, and the second call's
fault propagating to the caller (fatally, with no further retry) if it
fails. -/
theorem C2_retry_once {R : Type} (send : List String → Except FaultData R)
    (loginNew session methodName : String) (args : List String)
    (e : FaultData) (hfail : send (session :: args) = .error e)
    (hsess : e.is_invalid_session = true) :
    (methodCall send loginNew session methodName args).loginCalls = 1 ∧
    (methodCall send loginNew session methodName args).sentData
      = [session :: args, loginNew :: args] ∧
    (methodCall send loginNew session methodName args).finalSession
      = loginNew ∧
    (methodCall send loginNew session methodName args).outcome
      = (match send (loginNew :: args) with
         | .ok v => .ret (some v)
         | .error e2 => .raiseSugarError e2) := by
  unfold methodCall
  rw [hfail]
  cases h2 : send (loginNew :: args) <;> simp [hsess, h2]

/-- C2 witness: the retry-once theorem applied to the concrete transport
`sendFx` with stale session `"old"` and fresh token `"new"`. -/
theorem C2_retry_once_witness :
    (methodCall sendFx "new" "old" "m" ["x"]).loginCalls = 1 ∧
    (methodCall sendFx "new" "old" "m" ["x"]).sentData
      = [["old", "x"], ["new", "x"]] ∧
    (methodCall sendFx "new" "old" "m" ["x"]).finalSession = "new" ∧
    (methodCall sendFx "new" "old" "m" ["x"]).outcome
      = (match sendFx ["new", "x"] with
         | .ok v => .ret (some v)
         | .error e2 => .raiseSugarError e2) :=
  C2_retry_once sendFx "new" "old" "m" ["x"]
    ⟨"Invalid Session ID", "d", 11⟩ (by rfl) (by decide)

/-- C3.  What `_method_call` actually does on an invalid-request fault
(code 1001): it prints the method name and arguments, then falls through
to `return result` with the local variable `result` never assigned —
raising `UnboundLocalError` instead of returning the partial result the
claim describes. -/
theorem C3_invalid_request_crashes {R : Type}
    (send : List String → Except FaultData R)
    (loginNew session methodName : String) (args : List String)
    (e : FaultData) (hfail : send (session :: args) = .error e)
    (hreq : e.number = 1001) :
    (methodCall send loginNew session methodName args).outcome
      = .raiseUnboundLocal ∧
    (methodCall send loginNew session methodName args).logged
      = some (methodName, args) ∧
    (methodCall send loginNew session methodName args).loginCalls = 0 := by
  unfold methodCall
  rw [hfail]
  simp [FaultData.is_invalid_session, FaultData.is_missing_module,
    FaultData.is_null_response, FaultData.is_invalid_request, hreq]

/-- C3 witness: the invalid-request behaviour evaluated at the concrete
failing input — `_method_call("get_entry", "x")` over a transport whose
fault number is 1001. -/
theorem C3_invalid_request_witness :
    (methodCall sendBadReqFx "new" "s" "get_entry" ["x"]).outcome
      = .raiseUnboundLocal ∧
    (methodCall sendBadReqFx "new" "s" "get_entry" ["x"]).logged
      = some ("get_entry", ["x"]) ∧
    (methodCall sendBadReqFx "new" "s" "get_entry" ["x"]).loginCalls = 0 :=
  C3_invalid_request_crashes sendBadReqFx "new" "s" "get_entry" ["x"]
    ⟨"Invalid Request", "d", 1001⟩ (by rfl) (by decide)

theorem dictGet_dictSet_self {V : Type} (l : List (String × V))
    (k : String) (v : V) : dictGet (dictSet l k v) k = some v := by
  induction l with
  | nil => simp [dictSet, dictGet]
  | cons hd tl ih =>
    by_cases h : hd.1 = k
    · simp [dictSet, dictGet, h]
    · simp [dictSet, dictGet, h, ih]

/-- C8.  Schema validation on entity field access: for every field name
not in the module's available-field set, reading raises the
attribute-validation fault without any remote call, and writing raises
the same fault leaving the field mapping and the dirty list (indeed the
whole entry) unchanged. -/
theorem C8_schema_fault (e : SugarEntry)
    (remote : String → Option (List (String × String))) (f v : String)
    (h : f ∉ e.available_fields) :
    e.setitem f v = (some (.attributeError f), e) ∧
    e.getitem remote f = (.error (.attributeError f), e, 0) := by
  constructor
  · simp [SugarEntry.setitem, h]
  · simp [SugarEntry.getitem, h]

/-- C8 witness: the schema-fault theorem at the concrete entry `entryFx`
(schema `id`, `name`) and the unknown field `"bogus"`. -/
theorem C8_schema_fault_witness :
    entryFx.setitem "bogus" "v" = (some (.attributeError "bogus"), entryFx) ∧
    entryFx.getitem (fun _ => none) "bogus"
      = (.error (.attributeError "bogus"), entryFx, 0) :=
  C8_schema_fault entryFx (fun _ => none) "bogus" "v" (by decide)

/-- C9.  Dirty-tracking postcondition: for a schema field `f` of an entry
whose dirty list holds `f` at most once, the write `entity[f] = v` raises
nothing; the following read returns `v` with zero remote calls and
without changing the entry; `f` is dirty exactly once; and after a second
write `entity[f] = w` the read returns `w`, still with `f` dirty exactly
once. -/
theorem C9_dirty_tracking (e : SugarEntry)
    (remote : String → Option (List (String × String))) (f v w : String)
    (hav : f ∈ e.available_fields)
    (hcnt : e.dirty_fields.count f ≤ 1) :
    (e.setitem f v).1 = none ∧
    (e.setitem f v).2.getitem remote f = (.ok v, (e.setitem f v).2, 0) ∧
    (e.setitem f v).2.dirty_fields.count f = 1 ∧
    ((e.setitem f v).2.setitem f w).2.getitem remote f
      = (.ok w, ((e.setitem f v).2.setitem f w).2, 0) ∧
    ((e.setitem f v).2.setitem f w).2.dirty_fields.count f = 1 := by
  have hone : ∀ d : List String, d.count f ≤ 1 →
      (if f ∈ d then d else d ++ [f]).count f = 1 := by
    intro d hd
    by_cases hm : f ∈ d
    · have := List.count_pos_iff.mpr hm
      simp only [if_pos hm]
      omega
    · rw [if_neg hm, List.count_append, List.count_eq_zero.mpr hm]
      simp
  constructor
  · simp [SugarEntry.setitem, hav]
  refine ⟨?_, ?_, ?_, ?_⟩
  · simp [SugarEntry.setitem, hav, SugarEntry.getitem,
      dictGet_dictSet_self]
  · simp only [SugarEntry.setitem, if_pos hav]
    exact hone e.dirty_fields hcnt
  · simp [SugarEntry.setitem, hav, SugarEntry.getitem,
      dictGet_dictSet_self]
  · have h1 : (e.setitem f v).2.dirty_fields.count f = 1 := by
      simp only [SugarEntry.setitem, if_pos hav]
      exact hone e.dirty_fields hcnt
    simp only [SugarEntry.setitem, if_pos hav] at h1 ⊢
    exact hone _ (le_of_eq h1)

/-- C9 witness: the dirty-tracking theorem at the concrete entry
`entryFx`, field `"name"`, values `"bob"` then `"alice"`. -/
theorem C9_dirty_tracking_witness :
    (entryFx.setitem "name" "bob").1 = none ∧
    (entryFx.setitem "name" "bob").2.getitem (fun _ => none) "name"
      = (.ok "bob", (entryFx.setitem "name" "bob").2, 0) ∧
    (entryFx.setitem "name" "bob").2.dirty_fields.count "name" = 1 ∧
    ((entryFx.setitem "name" "bob").2.setitem "name" "alice").2.getitem
        (fun _ => none) "name"
      = (.ok "alice",
         ((entryFx.setitem "name" "bob").2.setitem "name" "alice").2, 0) ∧
    ((entryFx.setitem "name" "bob").2.setitem "name" "alice").2.dirty_fields.count
        "name" = 1 :=
  C9_dirty_tracking entryFx (fun _ => none) "name" "bob" "alice"
    (by decide) (by decide)

/-- C4, amended.  `filter`, `exclude`, `order_by` and `only` construct
fresh `QueryList`s and leave the receiver entirely unchanged; indexing
and slicing, by contrast, evaluate eagerly on a clone (returning a result
list, not a `QueryList`) and first reset the receiver's limit and offset
through `clear_limits`, while leaving the receiver's predicate string,
ordering clause and field projection unchanged. -/
theorem C4_narrowing_effects (ql : QueryList) (a : List (String × QVal))
    (v : String) (fs : List String) (start stop : Option Int) (k : Int) :
    (ql.filter a).map Prod.fst = (build_query ql.model a).map (fun _ => ql) ∧
    (ql.exclude a).map Prod.fst = (build_query ql.model a).map (fun _ => ql) ∧
    (ql.orderBy v).1 = ql ∧
    (ql.only fs).1 = ql ∧
    (ql.getitemSlice start stop).1 = ql.clear_limits ∧
    (ql.getitemInt k).1 = ql.clear_limits ∧
    (ql.getitemSlice start stop).1.query = ql.query ∧
    (ql.getitemSlice start stop).1.order_by = ql.order_by ∧
    (ql.getitemSlice start stop).1.fields = ql.fields := by
  refine ⟨?_, ?_, rfl, rfl, rfl, rfl, rfl, rfl, rfl⟩ <;>
    cases h : build_query ql.model a <;>
      simp [QueryList.filter, QueryList.exclude, h, Except.map]

/-- C4, counterexample to the claim as stated: slicing `qlLimFx[0:2]`
mutates the receiver — its `_limit` drops from `3` to `None` and its
`_offset` from `2` to `0` (the `self.clear_limits()` in `__getitem__`) —
refuting "indexing and slicing leave the receiver's limit and offset
unchanged". -/
theorem C4_counterexample :
    qlLimFx.limit = .intV 3 ∧ qlLimFx.offset = .intV 2 ∧
    (qlLimFx.getitemSlice (some 0) (some 2)).1.limit = .noneV ∧
    (qlLimFx.getitemSlice (some 0) (some 2)).1.offset = .intV 0 ∧
    (qlLimFx.getitemSlice (some 0) (some 2)).1 ≠ qlLimFx := by
  refine ⟨rfl, rfl, rfl, rfl, ?_⟩
  intro h
  have := congrArg QueryList.limit h
  simp [qlLimFx, QueryList.getitemSlice, QueryList.clear_limits] at this

/-- C5, amended.  Slice composition through `set_limits`: on a query
whose watermarks already restrict results to `[L, H)`, a further
non-negative slice intersects via the running watermarks, and whenever
the composed window is non-empty the resulting effective offset/limit
window is contained in `[L, H)`.  (When the composed window is empty —
low watermark equal to high — `set_limits` instead calls `clear_limits`,
reverting the query to an unbounded window; see the counterexample.) -/
theorem C5_slice_composition (ql : QueryList) (L H : Int) (l h : Option Int)
    (hL : ql.low_mark = L) (hH : ql.high_mark = some H) (hLH : L ≤ H)
    (hl : 0 ≤ l.getD 0) (hh : 0 ≤ h.getD 0)
    (hne : (ql.set_limits l h).high_mark
      ≠ some (ql.set_limits l h).low_mark) :
    windowContained (ql.set_limits l h).limit (ql.set_limits l h).offset
      L H := by
  cases l with
  | none =>
    cases h with
    | none =>
      simp only [QueryList.set_limits, hH, hL, QueryList.clear_limits,
        get_limit_offset_params, windowContained] at hne ⊢
      split_ifs at hne ⊢ <;> simp_all <;> omega
    | some hv =>
      simp only [Option.getD] at hh
      simp only [QueryList.set_limits, hH, hL, QueryList.clear_limits,
        get_limit_offset_params, windowContained] at hne ⊢
      split_ifs at hne ⊢ <;> simp_all <;> omega
  | some lv =>
    simp only [Option.getD] at hl
    cases h with
    | none =>
      simp only [QueryList.set_limits, hH, hL, QueryList.clear_limits,
        get_limit_offset_params, windowContained] at hne ⊢
      split_ifs at hne ⊢ <;> simp_all <;> omega
    | some hv =>
      simp only [Option.getD] at hh
      simp only [QueryList.set_limits, hH, hL, QueryList.clear_limits,
        get_limit_offset_params, windowContained] at hne ⊢
      split_ifs at hne ⊢ <;> simp_all <;> omega

/-- C5 witness: slicing the `[2, 5)`-restricted `qlLimFx` further by
`[0:2]` composes to the effective window `[2, 4)`, contained in `[2, 5)`. -/
theorem C5_slice_composition_witness :
    windowContained (qlLimFx.set_limits (some 0) (some 2)).limit
      (qlLimFx.set_limits (some 0) (some 2)).offset 2 5 :=
  C5_slice_composition qlLimFx 2 5 (some 0) (some 2) rfl rfl
    (by decide) (by decide) (by decide) (by decide)

/-- C5, counterexample to the claim as stated: on the `[2, 5)`-restricted
`qlLimFx`, the further non-negative slice `[0:0]` composes to an empty
window (both watermarks land on 2), which `set_limits` answers by
clearing the limits — `_limit = None`, `_offset = 0` — an unbounded
effective window that extends past the original `[2, 5)` bounds instead
of staying inside them. -/
theorem C5_counterexample :
    (qlLimFx.set_limits (some 0) (some 0)).limit = .noneV ∧
    (qlLimFx.set_limits (some 0) (some 0)).offset = .intV 0 ∧
    ¬ windowContained (qlLimFx.set_limits (some 0) (some 0)).limit
        (qlLimFx.set_limits (some 0) (some 0)).offset 2 5 := by
  refine ⟨rfl, rfl, ?_⟩
  intro hc
  exact hc

/-- C7.  `get()` multiplicity: for every keyword query whose predicate
builds successfully, `get` returns the unique matching record (the head
of the fetched page) when exactly one record matches, raises the
not-found fault (`DoesNotExist`) when zero match, and raises the
multiplicity fault (`MultipleObjectsReturned`) when two or more match. -/
theorem C7_get_multiplicity (ql : QueryList)
    (search : SearchArgs → List SugarEntry)
    (kwargs : List (String × QVal)) (sa : SearchArgs)
    (hsa : ql.getSearchArgs kwargs = .ok sa) :
    ql.get search kwargs =
      (if (search sa).length = 1 then .ok (search sa).head?
       else if (search sa).length = 0 then
         .error (.doesNotExist ql.model.module_name)
       else
         .error (.multipleReturned ql.model.module_name
           (search sa).length)) := by
  simp [QueryList.get, hsa]

/-- C7 witness: `get(id="7")` over the one-entry oracle `searchOneFx`
returns that entry. -/
theorem C7_get_multiplicity_witness :
    qlFx.get searchOneFx [("id", .s "7")] =
      (if (searchOneFx ⟨"t.id = \"7\"", "", .strV "", .strV "", none,
              none⟩).length = 1 then
        .ok (searchOneFx ⟨"t.id = \"7\"", "", .strV "", .strV "", none,
              none⟩).head?
       else if (searchOneFx ⟨"t.id = \"7\"", "", .strV "", .strV "", none,
              none⟩).length = 0 then
         .error (.doesNotExist qlFx.model.module_name)
       else
         .error (.multipleReturned qlFx.model.module_name
           (searchOneFx ⟨"t.id = \"7\"", "", .strV "", .strV "", none,
              none⟩).length)) :=
  C7_get_multiplicity qlFx searchOneFx [("id", .s "7")]
    ⟨"t.id = \"7\"", "", .strV "", .strV "", none, none⟩ (by rfl)

/-- C10.  `get()` discards the receiver's accumulated predicate: after
any successful `filter`, the single `_search` call that `get(**kwargs)`
issues uses the predicate built from the kwargs of `get` alone, an empty
ordering clause and empty limit/offset — identical to the call the
unfiltered receiver would issue — so `ql.filter(a=1).get(id=X)` searches
by `id=X` alone. -/
theorem C10_get_discards_receiver_query (ql ql2 : QueryList)
    (fk gk : List (String × QVal))
    (hf : ql.filter fk = .ok (ql, ql2)) (q : String)
    (hq : build_query ql.model gk = .ok q) :
    ql2.getSearchArgs gk
      = .ok ⟨q, "", .strV "", .strV "", ql.fields, ql.links_to_names⟩ ∧
    ql2.getSearchArgs gk = ql.getSearchArgs gk := by
  cases hbf : build_query ql.model fk with
  | error e => simp [QueryList.filter, hbf] at hf
  | ok qf =>
    simp only [QueryList.filter, hbf] at hf
    have h2 : ql2 = QueryList.init ql.model
        (if ql.query ≠ "" then "(" ++ ql.query ++ ") AND (" ++ qf ++ ")"
         else qf) ql.order_by ql.limit ql.offset ql.fields
        ql.links_to_names := by
      cases hf
      rfl
    subst h2
    constructor
    · simp [QueryList.getSearchArgs, QueryList.init, QueryList.searchArgs,
        hq]
    · simp [QueryList.getSearchArgs, QueryList.init, QueryList.searchArgs,
        hq]

/-- C10 witness: filtering `qlFx` by `a=1` and then calling
`get(id="7")` issues the search `t.id = "7"` with empty ordering and
limits, exactly as the unfiltered query would. -/
theorem C10_get_discards_witness :
    (QueryList.init modelFx "t.a = \"1\"" "" (.strV "") (.strV "") none
        none).getSearchArgs [("id", .s "7")]
      = .ok ⟨"t.id = \"7\"", "", .strV "", .strV "", qlFx.fields,
          qlFx.links_to_names⟩ ∧
    (QueryList.init modelFx "t.a = \"1\"" "" (.strV "") (.strV "") none
        none).getSearchArgs [("id", .s "7")]
      = qlFx.getSearchArgs [("id", .s "7")] :=
  C10_get_discards_receiver_query qlFx
    (QueryList.init modelFx "t.a = \"1\"" "" (.strV "") (.strV "") none
      none)
    [("a", .s "1")] [("id", .s "7")] (by rfl) "t.id = \"7\"" (by rfl)

theorem renderOper_ne_empty (field sep oper : String) (val : QVal)
    (frag : String) (h : renderOper field sep oper val = .ok frag) :
    frag ≠ "" := by
  unfold renderOper at h
  split_ifs at h <;> cases h <;> apply append_right_ne <;> decide

theorem item_frag_ne (model : SugarEntry) (keys : List String)
    (kv : String × QVal) (frag : String)
    (h : item_frag model keys kv = .ok (some frag)) : frag ≠ "" := by
  simp only [item_frag] at h
  split_ifs at h
  all_goals
    first
    | cases h
    | (split at h
       · cases h
       · rename_i f hro
         cases h
         exact renderOper_ne_empty _ _ _ _ _ hro)

theorem item_frag_keys_irrel (model : SugarEntry)
    (keys1 keys2 : List String) (kv : String × QVal)
    (hkv : (partition3 kv.1).1 ≠ "pk") :
    item_frag model keys1 kv = item_frag model keys2 kv := by
  have h1 : (if (partition3 kv.1).1 = "pk" ∧ "id" ∉ keys1 then "id"
      else (partition3 kv.1).1) = (partition3 kv.1).1 :=
    if_neg (fun hc => hkv hc.1)
  have h2 : (if (partition3 kv.1).1 = "pk" ∧ "id" ∉ keys2 then "id"
      else (partition3 kv.1).1) = (partition3 kv.1).1 :=
    if_neg (fun hc => hkv hc.1)
  simp only [item_frag, h1, h2]

theorem build_atoms_ne (model : SugarEntry) (keys : List String)
    (l : List (String × QVal)) :
    ∀ A : List String, build_atoms model keys l = .ok A →
      ∀ x ∈ A, x ≠ "" := by
  induction l with
  | nil =>
    intro A h
    cases h
    simp
  | cons kv rest ih =>
    intro A h
    simp only [build_atoms] at h
    cases hf : item_frag model keys kv with
    | error e => rw [hf] at h; cases h
    | ok o =>
      cases o with
      | none =>
        rw [hf] at h
        exact ih A h
      | some frag =>
        rw [hf] at h
        cases hrec : build_atoms model keys rest with
        | error e => rw [hrec] at h; cases h
        | ok A2 =>
          rw [hrec] at h
          cases h
          intro x hx
          rcases List.mem_cons.mp hx with hx1 | hx2
          · subst hx1
            exact item_frag_ne model keys kv x hf
          · exact ih A2 hrec x hx2

theorem build_query_go_eq (model : SugarEntry) (keys : List String)
    (l : List (String × QVal)) :
    ∀ acc : String,
      build_query_go model keys l acc
        = (build_atoms model keys l).map (fun ats => joinGo acc ats) := by
  induction l with
  | nil => intro acc; rfl
  | cons kv rest ih =>
    intro acc
    simp only [build_query_go, build_query_step, build_atoms]
    cases hf : item_frag model keys kv with
    | error e => rfl
    | ok o =>
      cases o with
      | none => exact ih acc
      | some frag =>
        cases hrec : build_atoms model keys rest <;>
          simp [ih, hrec, Except.map, joinGo]

theorem build_query_eq (model : SugarEntry) (q : List (String × QVal)) :
    build_query model q
      = (build_atoms model (q.map Prod.fst) q).map joinAnd :=
  build_query_go_eq model (q.map Prod.fst) q ""

theorem joinGo_ne (ats : List String) :
    ∀ acc : String, acc ≠ "" → joinGo acc ats ≠ "" := by
  induction ats with
  | nil => intro acc h; exact h
  | cons a rest ih =>
    intro acc h
    show joinGo (joinAndStep acc a) rest ≠ ""
    apply ih
    unfold joinAndStep
    rw [if_pos h]
    apply length_pos_ne
    rw [String.length_append, String.length_append]
    have h5 : 0 < (" AND " : String).length := by decide
    omega

theorem eval_of_toStr_empty (p : Pred) (hwf : p.wf) (hts : p.toStr = "")
    (env : String → Bool) : p.eval env = true := by
  cases p with
  | conj ats =>
    cases ats with
    | nil => rfl
    | cons a rest =>
      exfalso
      apply joinGo_ne rest a (hwf a (by simp))
      simpa [Pred.toStr, joinAnd, joinGo, joinAndStep] using hts
  | and2 p1 p2 =>
    exfalso
    exact append_right_ne _ ")" (by decide) hts

theorem eval_filterP (p : Pred) (ats : List String) (hwf : p.wf)
    (env : String → Bool) :
    (filterP p ats).eval env = (p.eval env && ats.all env) := by
  unfold filterP
  split_ifs with h
  · rfl
  · simp only [ne_eq, not_not] at h
    rw [eval_of_toStr_empty p hwf h env]
    simp [Pred.eval]

theorem wf_filterP (p : Pred) (ats : List String) (hp : p.wf)
    (hats : ∀ a ∈ ats, a ≠ "") : (filterP p ats).wf := by
  unfold filterP
  split_ifs
  · exact ⟨hp, hats⟩
  · exact hats

theorem toStr_filterP (p : Pred) (ats : List String) :
    (filterP p ats).toStr
      = if p.toStr ≠ "" then
          "(" ++ p.toStr ++ ") AND (" ++ joinAnd ats ++ ")"
        else joinAnd ats := by
  unfold filterP
  split_ifs <;> rfl

theorem build_atoms_keys_irrel (model : SugarEntry)
    (keys1 keys2 : List String) (l : List (String × QVal))
    (hpk : ∀ kv ∈ l, (partition3 kv.1).1 ≠ "pk") :
    build_atoms model keys1 l = build_atoms model keys2 l := by
  induction l with
  | nil => rfl
  | cons kv rest ih =>
    have hkv : (partition3 kv.1).1 ≠ "pk" := hpk kv (by simp)
    have hrest : ∀ x ∈ rest, (partition3 x.1).1 ≠ "pk" :=
      fun x hx => hpk x (List.mem_cons_of_mem kv hx)
    simp only [build_atoms, item_frag_keys_irrel model keys1 keys2 kv hkv,
      ih hrest]

theorem build_atoms_append (model : SugarEntry) (keys : List String)
    (a b : List (String × QVal)) :
    build_atoms model keys (a ++ b)
      = match build_atoms model keys a with
        | .error e => .error e
        | .ok A => (build_atoms model keys b).map (fun B => A ++ B) := by
  induction a with
  | nil =>
    simp only [List.nil_append]
    cases build_atoms model keys b <;> simp [build_atoms, Except.map]
  | cons kv rest ih =>
    simp only [List.cons_append, build_atoms]
    cases hf : item_frag model keys kv with
    | error e => rfl
    | ok o =>
      cases o with
      | none => exact ih
      | some frag =>
        simp only [List.append_eq]
        rw [ih]
        cases build_atoms model keys rest <;>
          cases build_atoms model keys b <;> simp [Except.map]

/-- C6.  Filter AND-composition: over constraints whose (partitioned)
field part is not the `pk` alias, if `a` renders to the atom list `A`
and `b` to `B`, then on a receiver whose predicate string serializes the
well-formed predicate `p0`, the predicate string built by
`filter(**a).filter(**b)` serializes `(p0 AND A) AND B` and the one
built by `filter(**a, **b)` serializes `p0 AND (A ++ B)` — and these two
predicates are logically equivalent (equal truth value in every
environment interpreting the atomic fragments). -/
theorem C6_filter_and_composition (ql : QueryList) (p0 : Pred)
    (a b : List (String × QVal)) (A B : List String)
    (hq : ql.query = p0.toStr) (hwf : p0.wf)
    (hA : build_atoms ql.model (a.map Prod.fst) a = .ok A)
    (hB : build_atoms ql.model (b.map Prod.fst) b = .ok B)
    (hpk : ∀ kv ∈ a ++ b, (partition3 kv.1).1 ≠ "pk") :
    chain2Query ql a b = .ok (Pred.toStr (filterP (filterP p0 A) B)) ∧
    combQuery ql (a ++ b) = .ok (Pred.toStr (filterP p0 (A ++ B))) ∧
    Pred.equiv (filterP (filterP p0 A) B) (filterP p0 (A ++ B)) := by
  have hqa : build_query ql.model a = .ok (joinAnd A) := by
    rw [build_query_eq, hA]
    rfl
  have hqb : build_query ql.model b = .ok (joinAnd B) := by
    rw [build_query_eq, hB]
    rfl
  have hAne := build_atoms_ne ql.model (a.map Prod.fst) a A hA
  have hBne := build_atoms_ne ql.model (b.map Prod.fst) b B hB
  have hpka : ∀ kv ∈ a, (partition3 kv.1).1 ≠ "pk" :=
    fun kv hkv => hpk kv (List.mem_append_left b hkv)
  have hpkb : ∀ kv ∈ b, (partition3 kv.1).1 ≠ "pk" :=
    fun kv hkv => hpk kv (List.mem_append_right a hkv)
  refine ⟨?_, ?_, ?_⟩
  · simp only [chain2Query, QueryList.filter, hqa, QueryList.init, hqb, hq,
      toStr_filterP]
  · have hab : build_atoms ql.model ((a ++ b).map Prod.fst) (a ++ b)
        = .ok (A ++ B) := by
      rw [build_atoms_append]
      rw [build_atoms_keys_irrel ql.model ((a ++ b).map Prod.fst)
        (a.map Prod.fst) a hpka, hA]
      rw [build_atoms_keys_irrel ql.model ((a ++ b).map Prod.fst)
        (b.map Prod.fst) b hpkb, hB]
      rfl
    have hqab : build_query ql.model (a ++ b) = .ok (joinAnd (A ++ B)) := by
      rw [build_query_eq, hab]
      rfl
    simp only [combQuery, QueryList.filter, hqab, QueryList.init, hq,
      toStr_filterP, Except.map]
  · intro env
    rw [eval_filterP _ _ (wf_filterP p0 A hwf hAne) env,
      eval_filterP p0 A hwf env, eval_filterP p0 (A ++ B) hwf env,
      List.all_append, Bool.and_assoc]

/-- C6 witness: over the fresh query `qlFx` (empty predicate, serialized
by `Pred.conj []`), chaining `filter(a="1")` then `filter(b="2")` is
logically equivalent to the single `filter(a="1", b="2")`. -/
theorem C6_filter_and_composition_witness :
    chain2Query qlFx [("a", .s "1")] [("b", .s "2")]
      = .ok (Pred.toStr (filterP (filterP (.conj []) ["t.a = \"1\""])
          ["t.b = \"2\""])) ∧
    combQuery qlFx ([("a", .s "1")] ++ [("b", .s "2")])
      = .ok (Pred.toStr (filterP (.conj [])
          (["t.a = \"1\""] ++ ["t.b = \"2\""]))) ∧
    Pred.equiv (filterP (filterP (.conj []) ["t.a = \"1\""]) ["t.b = \"2\""])
      (filterP (.conj []) (["t.a = \"1\""] ++ ["t.b = \"2\""])) :=
  C6_filter_and_composition qlFx (.conj []) [("a", .s "1")] [("b", .s "2")]
    ["t.a = \"1\""] ["t.b = \"2\""] rfl (by simp [Pred.wf]) (by rfl)
    (by rfl) (by decide)

end SugarCrm
